import Mathlib

/-!
# A verification model of the fire Controller request pipeline

This file gives a shallow embedding, in Lean 4, of the request-processing
pipeline of the `fire` JSON:API controller (src/controller.go) together with
the storage primitives it relies on (the `coal.Manager`, src/unnamed/part_005).

Documents are reduced to the fields the Controller actually manipulates in the
claims under study: the id, one generic attribute, the idempotent-create token
field, the consistent-update token field, the soft-delete timestamp field, one
to-many relationship field, one to-one relationship field (used as the inverse
of has-one/has-many relationships), and the pessimistic lock counter `_lk`.
A collection is a list of such documents; MongoDB object ids are modelled as
natural numbers and timestamps as natural numbers.

Every handler is embedded as a pure function returning `Except Err α`.  The
Controller runs all non-action operations inside one storage transaction
(src/controller.go lines 322-331) and any abort rolls the transaction back, so
an `.error` result means the collection is left exactly as it was: only `.ok`
results carry a new collection state.

Callback lists (authorizers, validators, decorators, notifiers) are empty in
the embedded configurations: they are user-supplied hooks and all claims under
study concern controllers without custom callbacks, for which
`runCallbacks` (lines 1933-1961) is the identity.  Tracing, timeouts and
response serialization are likewise outside the embedded state.
-/

/-- A MongoDB object id, modelled as a natural number (object ids are opaque
unique values; `0` plays the role of the zero `coal.ID`). -/
abbrev OId := Nat

/-- A classified request error: the JSON:API status code together with the
detail message, as produced by `jsonapi.BadRequest`, `jsonapi.NotFound` and
`jsonapi.ErrorFromStatus` or by a plain `stack.Abort` at the dispatch
boundary. -/
structure Err where
  status : Nat
  detail : String
deriving Repr, DecidableEq

/-- `jsonapi.BadRequest`: a 400 error with the given detail. -/
def jsonapiBadRequest (detail : String) : Err := ⟨400, detail⟩

/-- `jsonapi.NotFound`: a 404 error with the given detail. -/
def jsonapiNotFound (detail : String) : Err := ⟨404, detail⟩

/-- `jsonapi.ErrorFromStatus`: an error with an explicit status code. -/
def jsonapiErrorFromStatus (status : Nat) (detail : String) : Err := ⟨status, detail⟩

/-- Modelled from the spec: a plain (non JSON:API) error passed to
`stack.Abort` — e.g. `fmt.Errorf` values — is converted at the dispatch
boundary into a 500-class internal error (§7: internal/integrity errors
comprise "any unclassified callback error" and request-time configuration
errors; the conversion itself lives outside src/). -/
def internalAbort (detail : String) : Err := ⟨500, detail⟩

/-- A stored document, reduced to the fields the Controller manipulates:
`attr` stands for the ordinary attributes, `createToken` for the field flagged
`fire-idempotent-create`, `updateToken` for the field flagged
`fire-consistent-update`, `deleted` for the `*time.Time` field flagged
`fire-soft-delete`, `refs` for a to-many relationship field, `ref` for a
to-one relationship field (the inverse of a has-one/has-many relationship) and
`lock` for the `_lk` pessimistic lock counter maintained by `coal.Manager`. -/
structure Doc where
  id : OId
  attr : String := ""
  createToken : String := ""
  updateToken : String := ""
  deleted : Option Nat := none
  refs : List OId := []
  ref : OId := 0
  lock : Nat := 0
deriving Repr, DecidableEq

/-- A collection of documents (the state of one model's MongoDB collection). -/
abbrev Store := List Doc

/-- The controller configuration knobs relevant to the claims
(src/controller.go lines 117-142). -/
structure Config where
  softDelete : Bool := false
  idempotentCreate : Bool := false
  consistentUpdate : Bool := false
deriving Repr, DecidableEq

/-- The internal seven-way operation classification (src/controller.go lines
277-297 assigns it from the parsed intent). -/
inductive Operation where
  | listOp
  | findOp
  | createOp
  | updateOp
  | deleteOp
  | collectionActionOp
  | resourceActionOp
deriving Repr, DecidableEq

/-- Modelled from the spec: the `Operation.Write` predicate is declared outside
src/ — only its caller (src/controller.go line 1261) and the repository's
operation test (src/jsonapi/context_test.go, asserting the write flag holds
exactly for Create, Update and Delete) are included.  §5 requires the
pessimistic lock "whenever a Find is immediately followed by a
same-transaction write — e.g., Update, Delete-without-soft-delete", and the
predicate takes no controller configuration, so it holds for Create, Update
and Delete unconditionally. -/
def Operation.write : Operation → Bool
  | .createOp => true
  | .updateOp => true
  | .deleteOp => true
  | _ => false

/-- Modelled from the spec: actions run without an implicit transaction
(§4.1 step 7; `Operation.Action` is declared outside src/, called at
src/controller.go line 323). -/
def Operation.action : Operation → Bool
  | .collectionActionOp => true
  | .resourceActionOp => true
  | _ => false

/-! ## Storage primitives (`coal.Manager`, src/unnamed/part_005)

`findFirst` embeds `Manager.FindFirst`: it returns the first document
matching the query; with `lock` it runs a `FindOneAndUpdate` incrementing the
`_lk` counter and returns the document after the update.  `replaceFirst`
embeds `Manager.ReplaceFirst` (`ReplaceOne` on the translated query, reporting
whether a document matched).  `insertIfMissing` embeds
`Manager.InsertIfMissing` (an upsert with `$setOnInsert`, reporting whether a
document was inserted).  `updateById` embeds `Manager.Update` and `deleteById`
embeds `Manager.Delete`.  Unique-index duplicate-key signalling is determined
by the database's index configuration, which is outside the controller; the
embedded handlers therefore take the duplicate-key signal of each write as an
oracle `dup : Store → Doc → Bool` (`coal.IsDuplicate` on the returned
error). -/

/-- Increment the `_lk` lock counter of every document matching the query
(the `incrementLock` update of `coal.Manager`). -/
def lockMatching (q : Doc → Bool) (s : Store) : Store :=
  match s with
  | [] => []
  | d :: rest => if q d then { d with lock := d.lock + 1 } :: rest
                 else d :: lockMatching q rest

/-- `Manager.FindFirst` without lock: the first matching document, if any. -/
def findFirst (q : Doc → Bool) (s : Store) : Option Doc :=
  s.find? q

/-- `Manager.FindFirst` with lock: `FindOneAndUpdate` incrementing `_lk` and
returning the document after the update, together with the new collection
state. -/
def findFirstLock (q : Doc → Bool) (s : Store) : Option Doc × Store :=
  match s.find? q with
  | none => (none, s)
  | some d => (some { d with lock := d.lock + 1 }, lockMatching q s)

/-- `Manager.ReplaceFirst`: replace the first document matching the query,
returning whether one matched. -/
def replaceFirst (q : Doc → Bool) (m : Doc) (s : Store) : Bool × Store :=
  match s with
  | [] => (false, [])
  | d :: rest =>
      if q d then (true, m :: rest)
      else
        let r := replaceFirst q m rest
        (r.1, d :: r.2)

/-- `Manager.InsertIfMissing`: insert the document unless one matches the
query, returning whether it was inserted. -/
def insertIfMissing (q : Doc → Bool) (m : Doc) (s : Store) : Bool × Store :=
  if s.any q then (false, s) else (true, s ++ [m])

/-- `Manager.Insert`: plain insert. -/
def insertDoc (m : Doc) (s : Store) : Store :=
  s ++ [m]

/-- `Manager.Update` applying a `$set` of the soft-delete timestamp (the only
update the Controller issues, src/controller.go lines 678-683). -/
def updateSetDeleted (id : OId) (now : Nat) (s : Store) : Store :=
  s.map fun d => if d.id = id then { d with deleted := some now } else d

/-- `Manager.Delete`: remove the document with the given id. -/
def deleteById (id : OId) (s : Store) : Store :=
  s.filter fun d => d.id ≠ id

/-! ## Model loading -/

/-- The selector built by `loadModel` (src/controller.go lines 1245-1255):
the document id must equal the request's resource id and, when soft delete is
configured, the soft-delete timestamp field must be nil. -/
def loadSelector (cfg : Config) (rid : OId) (d : Doc) : Bool :=
  d.id = rid && (!cfg.softDelete || d.deleted = none)

/-- `Controller.loadModel` (src/controller.go lines 1240-1282): set the
selector (id plus soft-delete exclusion), lock the document iff the operation
is a write (`lock := ctx.Operation.Write()`, line 1261), find the first match
and fail with 404 "resource not found" when missing.  The loaded document and
the collection after the lock update are returned. -/
def loadModel (cfg : Config) (op : Operation) (rid : OId) (s : Store) :
    Except Err (Doc × Store) :=
  let lock := op.write
  if lock then
    match findFirstLock (loadSelector cfg rid) s with
    | (none, _) => .error (jsonapiNotFound "resource not found")
    | (some d, s₁) => .ok (d, s₁)
  else
    match findFirst (loadSelector cfg rid) s with
    | none => .error (jsonapiNotFound "resource not found")
    | some d => .ok (d, s)

/-! ## Delete -/

/-- `Controller.deleteResource` (src/controller.go lines 654-695): load the
existing document (no validators configured), then either set the soft-delete
timestamp via an update or hard-delete the document, and respond 204. -/
def deleteResource (cfg : Config) (rid : OId) (now : Nat) (s : Store) :
    Except Err Store := do
  let (m, s₁) ← loadModel cfg .deleteOp rid s
  if cfg.softDelete then
    pure (updateSetDeleted m.id now s₁)
  else
    pure (deleteById m.id s₁)

example : loadModel {} .findOp 1 [{ id := 1 }] = .ok ({ id := 1 }, [{ id := 1 }]) := rfl
example : loadModel {} .deleteOp 1 [{ id := 1 }] = .ok ({ id := 1, lock := 1 }, [{ id := 1, lock := 1 }]) := rfl
example : deleteResource { softDelete := true } 1 7 [{ id := 1 }] = .ok [{ id := 1, deleted := some 7, lock := 1 }] := rfl
example : deleteResource {} 1 7 [{ id := 1 }] = .ok [] := rfl
example : loadModel { softDelete := true } .findOp 1 [{ id := 1, deleted := some 3 }] = .error ⟨404, "resource not found"⟩ := rfl

/-! ## Create -/

/-- The attribute payload of a parsed create document (`ctx.Request.Data.One`)
after the structural checks of src/controller.go lines 452-464.  `assignData`
writes the supplied attributes onto the freshly made zero-value model (lines
470-474); an omitted attribute leaves the zero value, so a create document is
represented by the resulting assigned values, with `""` for omitted fields.
The claims under study concern controllers whose fields are all writable, so
the whitelist checks of `assignData` (lines 1406-1477) pass. -/
structure CreateDoc where
  attr : String := ""
  createToken : String := ""
deriving Repr, DecidableEq

/-- `Controller.createResource` (src/controller.go lines 439-534): make a
model with a fresh id, assign the document, set the initial consistent-update
token if enabled, then insert — conditionally on the idempotent-create token
when enabled — and respond 201.  `dup` is the duplicate-key oracle of the
attempted insert (`coal.IsDuplicate`, determined by the database's unique
indexes); `newId` is the id allocated by `coal.New()` and
`freshUpdateToken` the token from `coal.New().Hex()`.  The result carries the
inserted model, the response code and the new collection state. -/
def createResource (cfg : Config) (dup : Store → Doc → Bool) (newId : OId)
    (freshUpdateToken : String) (doc : CreateDoc) (s : Store) :
    Except Err (Doc × Nat × Store) :=
  -- lines 470-474: create model with id and assign attributes
  let m0 : Doc := { id := newId, attr := doc.attr, createToken := doc.createToken }
  -- lines 479-483: set initial update token if consistent update is enabled
  let m1 := if cfg.consistentUpdate then { m0 with updateToken := freshUpdateToken } else m0
  if cfg.idempotentCreate then
    -- lines 486-508
    let token := m1.createToken
    if token = "" then
      .error (jsonapiBadRequest "missing idempotent create token")
    else
      -- InsertIfMissing keyed by the idempotent create token; a duplicate-key
      -- error can only arise when the upsert actually attempts the insert
      let r := insertIfMissing (fun d => d.createToken = token) m1 s
      if r.1 && dup s m1 then
        .error (jsonapiErrorFromStatus 409 "document is not unique")
      else if !r.1 then
        .error (jsonapiErrorFromStatus 409 "existing document with same idempotent create token")
      else
        .ok (m1, 201, r.2)
  else
    -- lines 509-516: plain insert, 409 on a unique-index violation
    if dup s m1 then
      .error (jsonapiErrorFromStatus 409 "document is not unique")
    else
      .ok (m1, 201, insertDoc m1 s)

/-! ## Update -/

/-- The attribute payload of a parsed update document after the structural
checks of src/controller.go lines 548-561.  Assignment happens onto the loaded
model, so here an omitted attribute (`none`) genuinely differs from a supplied
one: `attributes.Assign` only writes the supplied keys. -/
structure UpdateDoc where
  attr : Option String := none
  createToken : Option String := none
  updateToken : Option String := none
deriving Repr, DecidableEq

/-- `Controller.assignData` for an update (src/controller.go lines 582 and
1401-1477): write each supplied attribute onto the loaded model.  The claims
under study concern controllers whose fields are all writable, so the
whitelist checks pass. -/
def assignData (m : Doc) (doc : UpdateDoc) : Doc :=
  { m with
    attr := doc.attr.getD m.attr
    createToken := doc.createToken.getD m.createToken
    updateToken := doc.updateToken.getD m.updateToken }

/-- `Controller.updateResource` (src/controller.go lines 536-652): load the
existing model, remember and reset the stored consistent-update token, assign
the document, reject a changed idempotent-create token, then persist — via a
compare-and-swap `ReplaceFirst` keyed on the submitted token when consistent
update is enabled, via a plain `Replace` otherwise — and respond 200.

`loadStore` is the collection as seen when the model is loaded and
`replaceStore` the collection as seen by the replace; a sequential request has
`replaceStore = loadStore`, while a concurrent update committing between the
two reads is modelled by differing stores.  (The load also increments the
`_lk` counter; the replace then overwrites the whole document with the model
derived from the loaded one, so the counter is carried through `Doc.lock`.)
`dup` is the duplicate-key oracle of the replace and `freshToken` the new
token from `coal.New().Hex()`. -/
def updateResource (cfg : Config) (dup : Store → Doc → Bool) (rid : OId)
    (doc : UpdateDoc) (freshToken : String) (loadStore replaceStore : Store) :
    Except Err (Doc × Nat × Store) :=
  -- lines 563-564: load model
  match loadModel cfg .updateOp rid loadStore with
  | .error e => .error e
  | .ok (m0, _) =>
    -- lines 566-571: get stored idempotent create token
    let storedCreateToken := m0.createToken
    -- lines 573-579: get and reset stored consistent update token
    let storedUpdateToken := m0.updateToken
    let m1 := if cfg.consistentUpdate then { m0 with updateToken := "" } else m0
    -- line 582: assign attributes
    let m2 := assignData m1 doc
    -- lines 584-591: check if idempotent create token has been changed
    if cfg.idempotentCreate ∧ m2.createToken ≠ storedCreateToken then
      .error (jsonapiBadRequest "idempotent create token cannot be changed")
    else if cfg.consistentUpdate then
      -- lines 596-623
      let submitted := m2.updateToken
      if submitted ≠ storedUpdateToken then
        .error (jsonapiBadRequest "invalid consistent update token")
      else
        -- line 608: generate new update token
        let m3 := { m2 with updateToken := freshToken }
        -- lines 610-618: conditional replace keyed on the submitted token
        let r := replaceFirst (fun d => d.id = m0.id && d.updateToken = submitted) m3 replaceStore
        if dup replaceStore m3 then
          .error (jsonapiErrorFromStatus 409 "document is not unique")
        else if !r.1 then
          -- lines 620-623: fail if not updated
          .error (jsonapiErrorFromStatus 409 "existing document with different consistent update token")
        else
          .ok (m3, 200, r.2)
    else
      -- lines 624-631: plain replace (the matched flag is not inspected)
      if dup replaceStore m2 then
        .error (jsonapiErrorFromStatus 409 "document is not unique")
      else
        .ok (m2, 200, (replaceFirst (fun d => d.id = m2.id) m2 replaceStore).2)

example :
    createResource { idempotentCreate := true } (fun _ _ => false) 5 "" { createToken := "t" } [] =
      .ok ({ id := 5, createToken := "t" }, 201, [{ id := 5, createToken := "t" }]) := rfl
example :
    createResource { idempotentCreate := true } (fun _ _ => false) 5 "" { createToken := "t" }
      [{ id := 9, createToken := "t" }] =
      .error ⟨409, "existing document with same idempotent create token"⟩ := rfl
example :
    updateResource { consistentUpdate := true } (fun _ _ => false) 1
      { updateToken := some "a" } "b" [{ id := 1, updateToken := "a" }] [{ id := 1, updateToken := "a" }] =
      .ok ({ id := 1, updateToken := "b", lock := 1 }, 200, [{ id := 1, updateToken := "b", lock := 1 }]) := rfl
example :
    updateResource { consistentUpdate := true } (fun _ _ => false) 1
      { updateToken := some "x" } "b" [{ id := 1, updateToken := "a" }] [{ id := 1, updateToken := "a" }] =
      .error ⟨400, "invalid consistent update token"⟩ := rfl
example :
    updateResource { consistentUpdate := true } (fun _ _ => false) 1
      { updateToken := some "a" } "b" [{ id := 1, updateToken := "a" }] [{ id := 1, updateToken := "c" }] =
      .error ⟨409, "existing document with different consistent update token"⟩ := rfl
example :
    updateResource { consistentUpdate := true } (fun _ _ => false) 1
      {} "b" [{ id := 1, updateToken := "a" }] [{ id := 1, updateToken := "a" }] =
      .error ⟨400, "invalid consistent update token"⟩ := rfl

/-! ## Relationship metadata and reference documents -/

/-- The relationship metadata the handlers consult on `c.meta.Relationships`:
the relationship name, the related resource type, and the closed cardinality
tag (`ToOne`/`ToMany`/`HasOne`/`HasMany` as mutually exclusive flags). -/
structure RelField where
  name : String
  relType : String
  toOne : Bool := false
  toMany : Bool := false
  hasOne : Bool := false
  hasMany : Bool := false
deriving Repr, DecidableEq

/-- The relationship part of the controller's model descriptor:
`c.meta.Relationships` as an association list from relationship name. -/
def findRel (meta : List RelField) (name : String) : Option RelField :=
  meta.find? (fun r => r.name = name)

/-- One resource reference of a relationship request body
(`ctx.Request.Data.Many`): the claimed resource type and the parsed id —
`none` models an id string rejected by `coal.FromHex`. -/
structure Ref where
  type : String
  rid : Option OId
deriving Repr, DecidableEq

/-! ## Relationship get and actions -/

/-- The leading phase of `Controller.getRelationship` (src/controller.go lines
863-887): resolve the named relationship — aborting with
`jsonapi.BadRequest "invalid relationship"` when the descriptor has no such
relationship — then load the owner and check the relationship is readable.
The later phases (decorators, preloading and extracting the relationship
fragment, lines 889-903) do not touch the collection and are represented by
returning the resolved relationship with the loaded owner. -/
def getRelationship (cfg : Config) (meta : List RelField) (readable : List String)
    (relName : String) (rid : OId) (s : Store) : Except Err (RelField × Doc) :=
  -- lines 875-879: get relationship
  match findRel meta relName with
  | none => .error (jsonapiBadRequest "invalid relationship")
  | some field =>
    -- lines 881-882: load model (a relationship fetch maps to the Find
    -- operation, src/controller.go line 289-290)
    match loadModel cfg .findOp rid s with
    | .error e => .error e
    | .ok (m, _) =>
      -- lines 884-887: check if relationship is readable
      if readable.contains field.name then
        .ok (field, m)
      else
        .error (jsonapiBadRequest "relationship is not readable")

/-- `Controller.handleCollectionAction` (src/controller.go lines 1142-1168):
look up the registered collection action — aborting with the plain error
"missing collection action callback" (rendered as a 500-class internal error)
when absent — then run the authorizers and the action callback.  `actions` is
the set of registered action names and `run` the outcome of the registered
callback for the named action. -/
def handleCollectionAction (actions : List String) (run : String → Except Err Unit)
    (name : String) : Except Err Unit :=
  if actions.contains name then
    run name
  else
    .error (internalAbort "missing collection action callback")

/-- `Controller.handleResourceAction` (src/controller.go lines 1170-1196):
look up the registered resource action — aborting with the plain error
"missing resource action callback" when absent — then load the owner and run
the action callback. -/
def handleResourceAction (cfg : Config) (actions : List String)
    (run : String → Doc → Except Err Unit) (name : String) (rid : OId) (s : Store) :
    Except Err Unit :=
  if actions.contains name then
    match loadModel cfg .resourceActionOp rid s with
    | .error e => .error e
    | .ok (m, _) => run name m
  else
    .error (internalAbort "missing resource action callback")

/-! ## Relationship mutation -/

/-- The body of the per-reference loop of `Controller.appendToRelationship`
(src/controller.go lines 1011-1021): read the current ids, skip the reference
if its id is already present, otherwise append it. -/
def appendRefId (ids : List OId) (refId : OId) : List OId :=
  if ids.contains refId then ids else ids ++ [refId]

/-- The position scan of `Controller.removeFromRelationship` (src/controller.go
lines 1095-1106): the index of the last occurrence of the id, or `none`
(the `pos = -1` mark) when absent. -/
def lastIdx (ids : List OId) (refId : OId) : Option Nat :=
  match ids with
  | [] => none
  | x :: rest =>
    match lastIdx rest refId with
    | some i => some (i + 1)
    | none => if x = refId then some 0 else none

/-- The body of the per-reference loop of `Controller.removeFromRelationship`
(src/controller.go lines 1095-1112): remove the id at the marked position if
one was found (`ids = append(ids[:pos], ids[pos+1:]...)`), otherwise leave the
ids unchanged. -/
def removeRefId (ids : List OId) (refId : OId) : List OId :=
  match lastIdx ids refId with
  | none => ids
  | some i => ids.take i ++ ids.drop (i + 1)

/-- The per-reference validation shared by append and remove (src/controller.go
lines 999-1009 and 1083-1093): the reference type must match the related type
and the id must parse. -/
def checkRef (relType : String) (ref : Ref) : Except Err OId :=
  if ref.type ≠ relType then
    .error (jsonapiBadRequest "resource type mismatch")
  else
    match ref.rid with
    | none => .error (jsonapiBadRequest "invalid relationship id")
    | some i => .ok i

/-- The full reference loop of `Controller.appendToRelationship`
(src/controller.go lines 998-1022), folded over the request body. -/
def appendRefs (relType : String) (ids : List OId) (refs : List Ref) :
    Except Err (List OId) :=
  match refs with
  | [] => .ok ids
  | ref :: rest =>
    match checkRef relType ref with
    | .error e => .error e
    | .ok i => appendRefs relType (appendRefId ids i) rest

/-- The full reference loop of `Controller.removeFromRelationship`
(src/controller.go lines 1082-1113), folded over the request body. -/
def removeRefs (relType : String) (ids : List OId) (refs : List Ref) :
    Except Err (List OId) :=
  match refs with
  | [] => .ok ids
  | ref :: rest =>
    match checkRef relType ref with
    | .error e => .error e
    | .ok i => removeRefs relType (removeRefId ids i) rest

/-- `Controller.appendToRelationship` (src/controller.go lines 967-1049):
reject outright when consistent update is enabled (405, "partial updates not
allowed with consistent updates"), resolve the relationship (must be to-many),
load the owner, check writability, process the references idempotently,
replace the model and respond with the relationship fragment. -/
def appendToRelationship (cfg : Config) (dup : Store → Doc → Bool)
    (meta : List RelField) (writable : List String) (relName : String) (rid : OId)
    (refs : List Ref) (s : Store) : Except Err (Doc × Nat × Store) :=
  -- lines 979-982: abort if consistent update is enabled
  if cfg.consistentUpdate then
    .error (jsonapiErrorFromStatus 405 "partial updates not allowed with consistent updates")
  else
    -- lines 984-988: get relationship
    match findRel meta relName with
    | none => .error (jsonapiBadRequest "invalid relationship")
    | some rel =>
      if !rel.toMany then
        .error (jsonapiBadRequest "invalid relationship")
      else
        -- lines 990-991: load model (relationship mutations map to Update)
        match loadModel cfg .updateOp rid s with
        | .error e => .error e
        | .ok (m, s₁) =>
          -- lines 993-996: check if relationship is writable
          if !writable.contains rel.name then
            .error (jsonapiBadRequest "relationship is not writable")
          else
            -- lines 998-1022: process all references
            match appendRefs rel.relType m.refs refs with
            | .error e => .error e
            | .ok ids =>
              let m₁ := { m with refs := ids }
              -- lines 1027-1032: replace model
              if dup s₁ m₁ then
                .error (jsonapiErrorFromStatus 409 "document is not unique")
              else
                .ok (m₁, 200, (replaceFirst (fun d => d.id = m₁.id) m₁ s₁).2)

/-- `Controller.removeFromRelationship` (src/controller.go lines 1051-1140):
identical pipeline to append, with the remove-if-present loop. -/
def removeFromRelationship (cfg : Config) (dup : Store → Doc → Bool)
    (meta : List RelField) (writable : List String) (relName : String) (rid : OId)
    (refs : List Ref) (s : Store) : Except Err (Doc × Nat × Store) :=
  -- lines 1063-1066: abort if consistent update is enabled
  if cfg.consistentUpdate then
    .error (jsonapiErrorFromStatus 405 "partial updates not allowed with consistent updates")
  else
    match findRel meta relName with
    | none => .error (jsonapiBadRequest "invalid relationship")
    | some rel =>
      if !rel.toMany then
        .error (jsonapiBadRequest "invalid relationship")
      else
        match loadModel cfg .updateOp rid s with
        | .error e => .error e
        | .ok (m, s₁) =>
          if !writable.contains rel.name then
            .error (jsonapiBadRequest "relationship is not writable")
          else
            match removeRefs rel.relType m.refs refs with
            | .error e => .error e
            | .ok ids =>
              let m₁ := { m with refs := ids }
              if dup s₁ m₁ then
                .error (jsonapiErrorFromStatus 409 "document is not unique")
              else
                .ok (m₁, 200, (replaceFirst (fun d => d.id = m₁.id) m₁ s₁).2)

/-- The leading phase of `Controller.setRelationship` (src/controller.go lines
906-965): reject outright when consistent update is enabled (405), resolve the
relationship (must be to-one or to-many), load the owner, check writability,
assign the relationship wholesale and replace.  For a to-many relationship the
assigned value is the full id list from the body (`assignRelationship`, lines
1519-1549). -/
def setRelationship (cfg : Config) (dup : Store → Doc → Bool)
    (meta : List RelField) (writable : List String) (relName : String) (rid : OId)
    (newIds : List OId) (s : Store) : Except Err (Doc × Nat × Store) :=
  -- lines 918-921: abort if consistent update is enabled
  if cfg.consistentUpdate then
    .error (jsonapiErrorFromStatus 405 "partial updates not allowed with consistent updates")
  else
    -- lines 923-927: get relationship
    match findRel meta relName with
    | none => .error (jsonapiBadRequest "invalid relationship")
    | some rel =>
      if !rel.toOne && !rel.toMany then
        .error (jsonapiBadRequest "invalid relationship")
      else
        match loadModel cfg .updateOp rid s with
        | .error e => .error e
        | .ok (m, s₁) =>
          if !writable.contains rel.name then
            .error (jsonapiBadRequest "relationship is not writable")
          else
            let m₁ := { m with refs := newIds }
            if dup s₁ m₁ then
              .error (jsonapiErrorFromStatus 409 "document is not unique")
            else
              .ok (m₁, 200, (replaceFirst (fun d => d.id = m₁.id) m₁ s₁).2)

example : appendRefId [1, 2] 2 = [1, 2] := by decide
example : appendRefId (appendRefId [1] 3) 3 = appendRefId [1] 3 := by decide
example : removeRefId [1, 2, 3] 2 = [1, 3] := by decide
example : removeRefId [1, 3] 2 = [1, 3] := by decide
example :
    appendToRelationship { consistentUpdate := true } (fun _ _ => false)
      [{ name := "posts", relType := "posts", toMany := true }] ["posts"] "posts" 1 [] [] =
      .error ⟨405, "partial updates not allowed with consistent updates"⟩ := rfl

/-! ## List loading -/

/-- The base query of `Controller.loadModels` (src/controller.go lines
1284-1399) for a request without filter, sort or pagination parameters: the
context selector, extended — when soft delete is configured — by the
constraint that the soft-delete timestamp field is nil (lines 1290-1296). -/
def listSelector (cfg : Config) (d : Doc) : Bool :=
  !cfg.softDelete || d.deleted = none

/-- `Controller.loadModels` for such a request: `FindAll` over the query
(line 1394). -/
def loadModels (cfg : Config) (s : Store) : List Doc :=
  s.filter (listSelector cfg)

/-! ## Relationship preloading -/

/-- The bulk query issued by `Controller.preloadRelationships` for one
has-one/has-many relationship (src/controller.go lines 1607-1638): the inverse
field of the related document must reference one of the owners'
ids (`{inverse: {$in: ownerIds}}`; for a to-many inverse field the `$in` holds
when the array intersects the id list) and — when the related controller soft
deletes — the related document's soft-delete timestamp field must be
nil (lines 1614-1621). -/
def preloadQuery (rcSoftDelete : Bool) (toOneInverse : Bool) (ownerIds : List OId)
    (d : Doc) : Bool :=
  (if toOneInverse then ownerIds.contains d.ref
   else d.refs.any (fun r => ownerIds.contains r)) &&
  (!rcSoftDelete || d.deleted = none)

/-- The in-memory partition step of `Controller.preloadRelationships`
(src/controller.go lines 1640-1671): the ids contributed by one loaded
reference document to one owner's entry — its `_id` once per matching non-zero
inverse reference. -/
def referenceHits (toOneInverse : Bool) (ownerId : OId) (d : Doc) : List OId :=
  if toOneInverse then
    if d.ref ≠ 0 && d.ref = ownerId then [d.id] else []
  else
    d.refs.flatMap (fun rid => if rid ≠ 0 && rid = ownerId then [d.id] else [])

/-- One owner's entry of the relationship-resolution cache built by
`Controller.preloadRelationships`: load the references matching the bulk
query from the related collection and partition them by owner id. -/
def preloadRefs (rcSoftDelete : Bool) (toOneInverse : Bool) (ownerIds : List OId)
    (related : Store) (ownerId : OId) : List OId :=
  ((related.filter (preloadQuery rcSoftDelete toOneInverse ownerIds)).map
    (referenceHits toOneInverse ownerId)).flatten

/-! ## Has-one resource assembly -/

/-- The has-one branch of `Controller.constructResource` (src/controller.go
lines 1814-1853): with no preloaded cache the reference is empty; otherwise
look up the owner's preloaded references, abort with the plain error
"has one relationship returned more than one result" (a 500-class internal
error) when there are two or more, and emit the single reference when there is
exactly one. -/
def constructHasOne (relationships : Option (List OId)) : Except Err (Option OId) :=
  match relationships with
  | none => .ok none
  | some refs =>
    if refs.length > 1 then
      .error (internalAbort "has one relationship returned more than one result")
    else
      .ok refs.head?

/-- The has-one completion of `Controller.getRelatedResources`
(src/controller.go lines 800-828): after the virtual sub-request against the
related controller returns its list of resources, abort with the plain error
"has one relationship returned more than one result" when it holds two or
more, otherwise pull out the single resource (or none). -/
def getRelatedHasOne (subResponse : List OId) : Except Err (Option OId) :=
  if subResponse.length > 1 then
    .error (internalAbort "has one relationship returned more than one result")
  else
    .ok subResponse.head?

/-! ## Pagination links -/

/-- The document links of a List response: absent links are the zero value in
the Go struct, modelled by `none`. -/
structure DocumentLinks where
  self : String
  first : Option String := none
  last : Option String := none
  previous : Option String := none
  next : Option String := none
deriving Repr, DecidableEq

/-- One pagination link (`fmt.Sprintf` at src/controller.go lines
1915-1926). -/
def pageLink (self : String) (number size : Nat) : String :=
  self ++ "?page[number]=" ++ toString number ++ "&page[size]=" ++ toString size

/-- The last page computed by `Controller.listLinks` (src/controller.go line
1912): `int64(math.Ceil(float64(count) / float64(pageSize)))`, which for the
int64 counts at hand is the ceiling division, embedded over ℕ. -/
def lastPage (count pageSize : Nat) : Nat :=
  (count + pageSize - 1) / pageSize

/-- `Controller.listLinks` (src/controller.go lines 1895-1931): pagination
links are added only when both page number and page size are positive, with
`count` the number of documents matching the query (`Manager.Count`, line
1908); "previous" is added only when the page number exceeds 1 and "next" only
when it is below the last page. -/
def listLinks (self : String) (pageNumber pageSize count : Nat) : DocumentLinks :=
  if pageNumber > 0 ∧ pageSize > 0 then
    let lp := lastPage count pageSize
    { self := pageLink self pageNumber pageSize
      first := some (pageLink self 1 pageSize)
      last := some (pageLink self lp pageSize)
      previous := if pageNumber > 1 then some (pageLink self (pageNumber - 1) pageSize) else none
      next := if pageNumber < lp then some (pageLink self (pageNumber + 1) pageSize) else none }
  else
    { self := self }

example : lastPage 0 3 = 0 := by decide
example : lastPage 7 3 = 3 := by decide
example : lastPage 9 3 = 3 := by decide
example : (listLinks "s" 1 3 7).previous = none := by decide
example : (listLinks "s" 3 3 7).next = none := by decide
example : (listLinks "s" 2 3 7).next.isSome = true := by decide
example : preloadRefs true true [1] [{ id := 5, ref := 1, deleted := some 2 }] 1 = [] := by decide
example : preloadRefs true true [1] [{ id := 5, ref := 1 }] 1 = [5] := by decide

/-! ## Helper lemmas -/

theorem replaceFirst_fst_of_exists (q : Doc → Bool) (m : Doc) (s : Store)
    (h : ∃ d ∈ s, q d = true) : (replaceFirst q m s).1 = true := by
  induction s with
  | nil => simp at h
  | cons a rest ih =>
    by_cases hq : q a = true
    · simp [replaceFirst, hq]
    · obtain ⟨d, hd, hdq⟩ := h
      rcases List.mem_cons.mp hd with h1 | h1
      · subst h1; exact absurd hdq hq
      · simp only [replaceFirst, hq, if_false]
        exact ih ⟨d, h1, hdq⟩

theorem replaceFirst_fst_of_not_exists (q : Doc → Bool) (m : Doc) (s : Store)
    (h : ∀ d ∈ s, q d = false) : (replaceFirst q m s).1 = false := by
  induction s with
  | nil => simp [replaceFirst]
  | cons a rest ih =>
    have ha := h a (List.mem_cons_self a rest)
    simp only [replaceFirst, ha, Bool.false_eq_true, if_false]
    exact ih fun d hd => h d (List.mem_cons_of_mem a hd)

theorem mem_replaceFirst_self (q : Doc → Bool) (m : Doc) (s : Store)
    (h : (replaceFirst q m s).1 = true) : m ∈ (replaceFirst q m s).2 := by
  induction s with
  | nil => simp [replaceFirst] at h
  | cons a rest ih =>
    by_cases hq : q a = true
    · simp [replaceFirst, hq]
    · simp only [replaceFirst, hq, if_false] at h ⊢
      exact List.mem_cons_of_mem a (ih h)

theorem exists_mem_lockMatching (q : Doc → Bool) (s : Store) (d₀ : Doc)
    (h : d₀ ∈ s) : ∃ d ∈ lockMatching q s, d.id = d₀.id ∧ d.deleted = d₀.deleted := by
  induction s with
  | nil => simp at h
  | cons a rest ih =>
    rcases List.mem_cons.mp h with h1 | h1
    · subst h1
      by_cases hq : q d₀ = true
      · exact ⟨{ d₀ with lock := d₀.lock + 1 }, by simp [lockMatching, hq], rfl, rfl⟩
      · exact ⟨d₀, by simp [lockMatching, hq], rfl, rfl⟩
    · by_cases hq : q a = true
      · exact ⟨d₀, by simp only [lockMatching, hq, if_true]; exact List.mem_cons_of_mem _ h1, rfl, rfl⟩
      · obtain ⟨d, hd, hid, hdel⟩ := ih h1
        exact ⟨d, by simp [lockMatching, hq, List.mem_cons_of_mem a hd], hid, hdel⟩

theorem deleted_of_mem_updateSetDeleted (i : OId) (now : Nat) (s : Store) (d : Doc)
    (hmem : d ∈ updateSetDeleted i now s) (hid : d.id = i) : d.deleted = some now := by
  unfold updateSetDeleted at hmem
  obtain ⟨d₀, _, hd⟩ := List.mem_map.mp hmem
  by_cases h0 : d₀.id = i
  · simp [h0] at hd; subst hd; rfl
  · simp [h0] at hd; subst hd; exact absurd hid h0

theorem loadModel_deleteOp_ok (cfg : Config) (rid : OId) (s : Store) (m : Doc) (s₁ : Store)
    (h : loadModel cfg .deleteOp rid s = .ok (m, s₁)) :
    ∃ m₀, s.find? (loadSelector cfg rid) = some m₀ ∧
      m = { m₀ with lock := m₀.lock + 1 } ∧
      s₁ = lockMatching (loadSelector cfg rid) s := by
  unfold loadModel findFirstLock at h
  simp only [Operation.write, if_true] at h
  cases hf : s.find? (loadSelector cfg rid) with
  | none => rw [hf] at h; simp at h
  | some m₀ =>
    rw [hf] at h
    simp only [Except.ok.injEq, Prod.mk.injEq] at h
    exact ⟨m₀, rfl, h.1.symm, h.2.symm⟩

theorem loadSelector_id (cfg : Config) (rid : OId) (d : Doc)
    (h : loadSelector cfg rid d = true) : d.id = rid := by
  simp [loadSelector] at h
  exact h.1

theorem contains_eq_true_iff (l : List OId) (x : OId) : l.contains x = true ↔ x ∈ l :=
  List.elem_iff

theorem contains_eq_false_iff (l : List OId) (x : OId) : l.contains x = false ↔ ¬ x ∈ l := by
  rw [← Bool.not_eq_true]
  exact not_congr List.elem_iff

theorem lastIdx_eq_none_of_not_mem (ids : List OId) (x : OId)
    (h : ¬ x ∈ ids) : lastIdx ids x = none := by
  induction ids with
  | nil => rfl
  | cons a rest ih =>
    have hx : ¬ x ∈ rest := fun hm => h (List.mem_cons_of_mem a hm)
    have ha : ¬ a = x := fun he => h (he ▸ List.mem_cons_self a rest)
    simp [lastIdx, ih hx, ha]

/-! ## C4: unknown relationship / unknown action -/

/-- C4 counterexample: the claim says an unknown relationship name or an
unknown collection action yields a 404-class not-found error, but the code
rejects an unknown relationship with `jsonapi.BadRequest` (status 400,
src/controller.go lines 875-879) and an unknown collection action with a
plain error rendered as a 500-class internal error (lines 1147-1151). -/
theorem getRelationship_unknown_status_counterexample :
    getRelationship {} [] [] "author" 1 [{ id := 1 }] =
      .error ⟨400, "invalid relationship"⟩ ∧
    handleCollectionAction [] (fun _ => .ok ()) "clean" =
      .error ⟨500, "missing collection action callback"⟩ ∧
    (400 : Nat) ≠ 404 ∧ (500 : Nat) ≠ 404 :=
  ⟨rfl, rfl, by decide, by decide⟩

/-- C4 (amended): a relationship-get naming an unknown relationship fails with
a 400 bad-request error "invalid relationship", and a request naming an
unknown collection or resource action fails with a 500-class internal error —
neither is a 404. -/
theorem unknown_relationship_and_action_errors :
    (∀ (cfg : Config) (meta : List RelField) (readable : List String)
       (relName : String) (rid : OId) (s : Store),
      findRel meta relName = none →
      getRelationship cfg meta readable relName rid s =
        .error (jsonapiBadRequest "invalid relationship")) ∧
    (∀ (actions : List String) (run : String → Except Err Unit) (name : String),
      actions.contains name = false →
      handleCollectionAction actions run name =
        .error (internalAbort "missing collection action callback")) ∧
    (∀ (cfg : Config) (actions : List String) (run : String → Doc → Except Err Unit)
       (name : String) (rid : OId) (s : Store),
      actions.contains name = false →
      handleResourceAction cfg actions run name rid s =
        .error (internalAbort "missing resource action callback")) := by
  refine ⟨fun cfg meta readable relName rid s h => ?_,
    fun actions run name h => ?_, fun cfg actions run name rid s h => ?_⟩
  · unfold getRelationship; rw [h]
  · unfold handleCollectionAction; rw [h]; simp
  · unfold handleResourceAction; rw [h]; simp

/-- C4 witness: the amended statement applied at concrete inputs. -/
theorem unknown_relationship_and_action_errors_witness :
    getRelationship {} [] [] "author" 1 [] =
      .error (jsonapiBadRequest "invalid relationship") ∧
    handleCollectionAction [] (fun _ => .ok ()) "clean" =
      .error (internalAbort "missing collection action callback") ∧
    handleResourceAction {} [] (fun _ _ => .ok ()) "recover" 1 [] =
      .error (internalAbort "missing resource action callback") :=
  ⟨unknown_relationship_and_action_errors.1 {} [] [] "author" 1 [] rfl,
   unknown_relationship_and_action_errors.2.1 [] (fun _ => .ok ()) "clean" rfl,
   unknown_relationship_and_action_errors.2.2 {} [] (fun _ _ => .ok ()) "recover" 1 [] rfl⟩

/-! ## C5: partial updates under consistent update -/

/-- C5 counterexample: the claim says the rejection of relationship mutations
under consistent update is a 409-class conflict, but the code uses
`http.StatusMethodNotAllowed` (405, src/controller.go lines 918-921, 979-982
and 1063-1066). -/
theorem setRelationship_consistentUpdate_status_counterexample :
    setRelationship { consistentUpdate := true } (fun _ _ => false)
      [{ name := "posts", relType := "posts", toMany := true }] ["posts"]
      "posts" 1 [2] [{ id := 1 }] =
      .error ⟨405, "partial updates not allowed with consistent updates"⟩ ∧
    (405 : Nat) ≠ 409 :=
  ⟨rfl, by decide⟩

/-- C5 (amended): with consistent update enabled, every relationship-set,
relationship-append and relationship-remove request is rejected — before any
model is loaded, for any collection state — with a 405 method-not-allowed
error "partial updates not allowed with consistent updates"; the erroring
transaction leaves the stored entity unchanged. -/
theorem relationship_mutations_rejected_under_consistentUpdate :
    ∀ (cfg : Config), cfg.consistentUpdate = true →
    ∀ (dup : Store → Doc → Bool) (meta : List RelField) (writable : List String)
      (relName : String) (rid : OId) (s : Store),
      (∀ newIds, setRelationship cfg dup meta writable relName rid newIds s =
        .error (jsonapiErrorFromStatus 405 "partial updates not allowed with consistent updates")) ∧
      (∀ refs, appendToRelationship cfg dup meta writable relName rid refs s =
        .error (jsonapiErrorFromStatus 405 "partial updates not allowed with consistent updates")) ∧
      (∀ refs, removeFromRelationship cfg dup meta writable relName rid refs s =
        .error (jsonapiErrorFromStatus 405 "partial updates not allowed with consistent updates")) := by
  intro cfg h dup meta writable relName rid s
  refine ⟨fun newIds => ?_, fun refs => ?_, fun refs => ?_⟩
  · unfold setRelationship; rw [h]; simp
  · unfold appendToRelationship; rw [h]; simp
  · unfold removeFromRelationship; rw [h]; simp

/-- C5 witness: the amended statement applied at a concrete input. -/
theorem relationship_mutations_rejected_witness :
    appendToRelationship { consistentUpdate := true } (fun _ _ => false)
      [{ name := "posts", relType := "posts", toMany := true }] ["posts"]
      "posts" 1 [⟨"posts", some 2⟩] [] =
      .error (jsonapiErrorFromStatus 405 "partial updates not allowed with consistent updates") :=
  (relationship_mutations_rejected_under_consistentUpdate
    { consistentUpdate := true } rfl (fun _ _ => false)
    [{ name := "posts", relType := "posts", toMany := true }] ["posts"]
    "posts" 1 []).2.1 [⟨"posts", some 2⟩]

/-! ## C6: delete load locking -/

/-- C6 counterexample: the claim says that with soft delete enabled the Delete
load does not lock the document, but the load of a Delete request increments
the `_lk` counter regardless: here the soft-deleted document ends with lock
counter 1 instead of its initial 0. -/
theorem deleteResource_softDelete_locks_counterexample :
    deleteResource { softDelete := true } 1 7 [{ id := 1 }] =
      .ok [{ id := 1, deleted := some 7, lock := 1 }] ∧
    (1 : Nat) ≠ 0 :=
  ⟨rfl, by decide⟩

/-- C6 (amended): for every Delete request the load of the existing entity
takes the pessimistic per-document lock regardless of the SoftDelete setting:
Delete is a write operation, so `loadModel` runs the locking
`FindOneAndUpdate`, incrementing the `_lk` counter of the loaded document. -/
theorem deleteResource_load_always_locks :
    ∀ (cfg : Config) (rid : OId) (s : Store) (m₀ : Doc),
      findFirst (loadSelector cfg rid) s = some m₀ →
      Operation.write .deleteOp = true ∧
      loadModel cfg .deleteOp rid s =
        .ok ({ m₀ with lock := m₀.lock + 1 }, lockMatching (loadSelector cfg rid) s) := by
  intro cfg rid s m₀ h
  refine ⟨rfl, ?_⟩
  unfold loadModel findFirstLock
  unfold findFirst at h
  simp only [Operation.write, if_true, h]

/-- C6 witness: the amended statement applied with soft delete enabled. -/
theorem deleteResource_load_always_locks_witness :
    Operation.write .deleteOp = true ∧
    loadModel { softDelete := true } .deleteOp 1 [{ id := 1 }] =
      .ok ({ id := 1, lock := 1 },
        lockMatching (loadSelector { softDelete := true } 1) [{ id := 1 }]) :=
  deleteResource_load_always_locks { softDelete := true } 1 [{ id := 1 }] { id := 1 } rfl

/-! ## C7: to-many append/remove idempotence -/

/-- C7: appending an already-present id leaves the id list unchanged (so
appending twice equals appending once), removing an absent id leaves the id
list unchanged, and in both cases the reference loops of
`appendToRelationship`/`removeFromRelationship` succeed rather than error. -/
theorem toMany_append_remove_idempotent :
    ∀ (ids : List OId) (x : OId) (relType : String),
      (ids.contains x = true → appendRefId ids x = ids) ∧
      appendRefId (appendRefId ids x) x = appendRefId ids x ∧
      (ids.contains x = false → removeRefId ids x = ids) ∧
      appendRefs relType ids [⟨relType, some x⟩, ⟨relType, some x⟩] =
        .ok (appendRefId ids x) ∧
      (ids.contains x = false →
        removeRefs relType ids [⟨relType, some x⟩] = .ok ids) := by
  intro ids x relType
  have happ : appendRefId (appendRefId ids x) x = appendRefId ids x := by
    by_cases h : ids.contains x = true
    · simp only [appendRefId, h, if_true]
    · have h0 : ids.contains x = false := Bool.eq_false_iff.mpr h
      have h2 : (ids ++ [x]).contains x = true :=
        (contains_eq_true_iff _ _).mpr (by simp)
      simp only [appendRefId, h0, Bool.false_eq_true, if_false, h2, if_true]
  have hrem : ids.contains x = false → removeRefId ids x = ids := by
    intro h
    have hx : ¬ x ∈ ids := (contains_eq_false_iff _ _).mp h
    unfold removeRefId
    rw [lastIdx_eq_none_of_not_mem ids x hx]
  refine ⟨fun h => by simp only [appendRefId, h, if_true], happ, hrem, ?_, fun h => ?_⟩
  · show appendRefs relType ids [⟨relType, some x⟩, ⟨relType, some x⟩] = .ok (appendRefId ids x)
    simp [appendRefs, checkRef, happ]
  · show removeRefs relType ids [⟨relType, some x⟩] = .ok ids
    simp [removeRefs, checkRef, hrem h]

/-- C7 witness: the statement applied at concrete inputs. -/
theorem toMany_append_remove_idempotent_witness :
    ([1, 2, 3] : List OId).contains 2 = true ∧
    appendRefId [1, 2, 3] 2 = [1, 2, 3] ∧
    appendRefId (appendRefId [1, 3] 2) 2 = appendRefId [1, 3] 2 ∧
    ([1, 3] : List OId).contains 2 = false ∧
    removeRefId [1, 3] 2 = [1, 3] ∧
    appendRefs "posts" [1, 3] [⟨"posts", some 2⟩, ⟨"posts", some 2⟩] =
      .ok (appendRefId [1, 3] 2) ∧
    removeRefs "posts" [1, 3] [⟨"posts", some 2⟩] = .ok [1, 3] :=
  ⟨by decide, (toMany_append_remove_idempotent [1, 2, 3] 2 "posts").1 (by decide),
   (toMany_append_remove_idempotent [1, 3] 2 "posts").2.1,
   by decide, (toMany_append_remove_idempotent [1, 3] 2 "posts").2.2.1 (by decide),
   (toMany_append_remove_idempotent [1, 3] 2 "posts").2.2.2.1,
   (toMany_append_remove_idempotent [1, 3] 2 "posts").2.2.2.2 (by decide)⟩

/-! ## C8: has-one cardinality invariant -/

/-- C8: whenever resolving a has-one relationship yields two or more related
documents for one owner — in the preloaded reference map during resource
assembly or in the sub-request result of a relationship-get — the operation
aborts with a 500-class internal error, and a successful resolution implies at
most one match. -/
theorem hasOne_cardinality_internal_error :
    ∀ (refs : List OId),
      (2 ≤ refs.length →
        constructHasOne (some refs) =
          .error (internalAbort "has one relationship returned more than one result") ∧
        getRelatedHasOne refs =
          .error (internalAbort "has one relationship returned more than one result")) ∧
      (∀ out, constructHasOne (some refs) = .ok out → refs.length ≤ 1) ∧
      (∀ out, getRelatedHasOne refs = .ok out → refs.length ≤ 1) := by
  intro refs
  refine ⟨fun h2 => ?_, fun out h => ?_, fun out h => ?_⟩
  · have hgt : refs.length > 1 := h2
    constructor
    · simp [constructHasOne, hgt]
    · simp [getRelatedHasOne, hgt]
  · by_cases hgt : refs.length > 1
    · simp [constructHasOne, hgt] at h
    · omega
  · by_cases hgt : refs.length > 1
    · simp [getRelatedHasOne, hgt] at h
    · omega

/-- C8 witness: the statement applied to a two-element preload entry. -/
theorem hasOne_cardinality_internal_error_witness :
    2 ≤ ([4, 5] : List OId).length ∧
    constructHasOne (some [4, 5]) =
      .error (internalAbort "has one relationship returned more than one result") ∧
    getRelatedHasOne [4, 5] =
      .error (internalAbort "has one relationship returned more than one result") :=
  ⟨by decide, (hasOne_cardinality_internal_error [4, 5]).1 (by decide)⟩


/-! ## C9: pagination bounds -/

theorem lastPage_eq_ceil (count size : Nat) (hs : 0 < size) :
    lastPage count size = ⌈(count : ℚ) / (size : ℚ)⌉₊ := by
  have hsq : (0 : ℚ) < (size : ℚ) := by exact_mod_cast hs
  unfold lastPage
  obtain ⟨q, hq⟩ : ∃ q, (count + size - 1) / size = q := ⟨_, rfl⟩
  rw [hq]
  have h1 := Nat.div_add_mod (count + size - 1) size
  rw [hq] at h1
  have h2 : (count + size - 1) % size < size := Nat.mod_lt _ hs
  have hub : count ≤ size * q := by omega
  refine le_antisymm ?_ (Nat.ceil_le.mpr ?_)
  · rcases Nat.eq_zero_or_pos q with h0 | h0
    · omega
    · have hc0 : count ≠ 0 := by
        intro hc
        rw [hc] at hq
        rw [Nat.zero_add, Nat.div_eq_of_lt (by omega)] at hq
        omega
      have h3 : (q - 1) * size = size * q - size := by
        rw [Nat.sub_mul, one_mul, Nat.mul_comm]
      have h4 : (q - 1) * size < count := by rw [h3]; omega
      have h5 : ((q - 1 : ℕ) : ℚ) < (count : ℚ) / (size : ℚ) := by
        rw [lt_div_iff₀ hsq]
        exact_mod_cast h4
      have h6 : q - 1 < ⌈(count : ℚ) / (size : ℚ)⌉₊ := Nat.lt_ceil.mpr h5
      omega
  · rw [div_le_iff₀ hsq]
    exact_mod_cast hub.trans_eq (Nat.mul_comm size q)

/-- C9: for a List over `count` matching documents with positive page number
and page size, the computed last page is the ceiling of `count / size`; the
"previous" link is present exactly when the page number exceeds 1, and the
"next" link is present exactly when the page number is strictly below the last
page. -/
theorem listLinks_pagination_bounds :
    ∀ (self : String) (count size page : Nat), 0 < page → 0 < size →
      lastPage count size = ⌈(count : ℚ) / (size : ℚ)⌉₊ ∧
      ((listLinks self page size count).previous.isSome ↔ 1 < page) ∧
      ((listLinks self page size count).next.isSome ↔ page < lastPage count size) := by
  intro self count size page hp hs
  have hcond : page > 0 ∧ size > 0 := ⟨hp, hs⟩
  refine ⟨lastPage_eq_ceil count size hs, ?_, ?_⟩
  · unfold listLinks
    rw [if_pos hcond]
    by_cases h : page > 1
    · simp [h]
    · simp [h]
  · unfold listLinks
    rw [if_pos hcond]
    by_cases h : page < lastPage count size
    · simp [h]
    · simp [h]

/-- C9 witness: the statement applied at 7 documents, page size 3, page 2. -/
theorem listLinks_pagination_bounds_witness :
    (0 : Nat) < 2 ∧ (0 : Nat) < 3 ∧
    (lastPage 7 3 = ⌈(7 : ℚ) / (3 : ℚ)⌉₊ ∧
      ((listLinks "/posts" 2 3 7).previous.isSome ↔ 1 < 2) ∧
      ((listLinks "/posts" 2 3 7).next.isSome ↔ 2 < lastPage 7 3)) :=
  ⟨by decide, by decide,
    listLinks_pagination_bounds "/posts" 7 3 2 (by decide) (by decide)⟩

/-! ## C2: idempotent create -/

/-- C2: with idempotent create enabled, a Create with an empty token fails
with 400; a first Create bearing token T inserts exactly one document with
token T and responds 201; a Create whose (non-empty) token matches an
already-stored document's token is rejected with 409 and inserts nothing (the
erroring transaction is rolled back); and a Create whose attempted insert hits
a duplicate-key condition is rejected with 409. -/
theorem idempotentCreate_exactly_one :
    ∀ (newId : OId) (fresh : String) (doc : CreateDoc) (s : Store)
      (dup : Store → Doc → Bool),
      (doc.createToken = "" →
        createResource { idempotentCreate := true } dup newId fresh doc s =
          .error (jsonapiBadRequest "missing idempotent create token")) ∧
      (doc.createToken ≠ "" →
       (∀ d ∈ s, d.createToken ≠ doc.createToken) →
       dup s { id := newId, attr := doc.attr, createToken := doc.createToken } = false →
        createResource { idempotentCreate := true } dup newId fresh doc s =
          .ok ({ id := newId, attr := doc.attr, createToken := doc.createToken }, 201,
            s ++ [{ id := newId, attr := doc.attr, createToken := doc.createToken }]) ∧
        ((s ++ [{ id := newId, attr := doc.attr, createToken := doc.createToken }] : Store)).countP
          (fun d => d.createToken = doc.createToken) = 1) ∧
      (doc.createToken ≠ "" →
       (∃ d ∈ s, d.createToken = doc.createToken) →
        createResource { idempotentCreate := true } dup newId fresh doc s =
          .error (jsonapiErrorFromStatus 409 "existing document with same idempotent create token")) ∧
      (doc.createToken ≠ "" →
       (∀ d ∈ s, d.createToken ≠ doc.createToken) →
       dup s { id := newId, attr := doc.attr, createToken := doc.createToken } = true →
        createResource { idempotentCreate := true } dup newId fresh doc s =
          .error (jsonapiErrorFromStatus 409 "document is not unique")) := by
  intro newId fresh doc s dup
  refine ⟨fun h0 => ?_, fun hne hnone hdup => ?_, fun hne hex => ?_, fun hne hnone hdup => ?_⟩
  · simp [createResource, insertIfMissing, h0]
  · have hany : s.any (fun d => d.createToken = doc.createToken) = false := by
      rw [List.any_eq_false]
      intro d hd
      simp [hnone d hd]
    have hzero : s.countP (fun d => decide (d.createToken = doc.createToken)) = 0 :=
      List.countP_eq_zero.mpr (fun d hd => by simp [hnone d hd])
    constructor
    · simp [createResource, insertIfMissing, hne, hany, hdup]
    · rw [List.countP_append, hzero]
      simp
  · have hany : s.any (fun d => d.createToken = doc.createToken) = true := by
      rw [List.any_eq_true]
      obtain ⟨d, hd, he⟩ := hex
      exact ⟨d, hd, by simp [he]⟩
    simp [createResource, insertIfMissing, hne, hany]
  · have hany : s.any (fun d => d.createToken = doc.createToken) = false := by
      rw [List.any_eq_false]
      intro d hd
      simp [hnone d hd]
    simp [createResource, insertIfMissing, hne, hany, hdup]

/-- C2 witness: the statement applied at concrete inputs — an empty token, a
fresh token on an empty collection, and the same token against the resulting
collection. -/
theorem idempotentCreate_exactly_one_witness :
    createResource { idempotentCreate := true } (fun _ _ => false) 5 ""
      { createToken := "" } [] =
      .error (jsonapiBadRequest "missing idempotent create token") ∧
    (createResource { idempotentCreate := true } (fun _ _ => false) 5 ""
      { createToken := "t" } [] =
      .ok ({ id := 5, attr := "", createToken := "t" }, 201,
        [] ++ [{ id := 5, attr := "", createToken := "t" }]) ∧
      ([] ++ [{ id := 5, attr := "", createToken := "t" }] : Store).countP
        (fun d => d.createToken = "t") = 1) ∧
    createResource { idempotentCreate := true } (fun _ _ => false) 6 ""
      { createToken := "t" } [{ id := 5, attr := "", createToken := "t" }] =
      .error (jsonapiErrorFromStatus 409 "existing document with same idempotent create token") ∧
    createResource { idempotentCreate := true } (fun _ _ => true) 5 ""
      { createToken := "t" } [] =
      .error (jsonapiErrorFromStatus 409 "document is not unique") :=
  ⟨(idempotentCreate_exactly_one 5 "" { createToken := "" } [] (fun _ _ => false)).1 rfl,
   (idempotentCreate_exactly_one 5 "" { createToken := "t" } [] (fun _ _ => false)).2.1
     (by decide) (by intro d hd; simp at hd) rfl,
   (idempotentCreate_exactly_one 6 "" { createToken := "t" }
     [{ id := 5, attr := "", createToken := "t" }] (fun _ _ => false)).2.2.1
     (by decide) ⟨{ id := 5, attr := "", createToken := "t" }, by simp, rfl⟩,
   (idempotentCreate_exactly_one 5 "" { createToken := "t" } [] (fun _ _ => true)).2.2.2
     (by decide) (by intro d hd; simp at hd) rfl⟩

/-! ## C3: soft-delete visibility -/

theorem eq_id_of_mem_referenceHits (toOne : Bool) (oid : OId) (d : Doc) (y : OId)
    (h : y ∈ referenceHits toOne oid d) : y = d.id := by
  unfold referenceHits at h
  cases toOne with
  | true =>
    simp only [if_true] at h
    split at h
    · simp at h; exact h
    · simp at h
  | false =>
    simp only [Bool.false_eq_true, if_false] at h
    rw [List.mem_flatMap] at h
    obtain ⟨a, _, h2⟩ := h
    split at h2
    · simp at h2; exact h2
    · simp at h2

theorem deleteResource_softDelete_ok (rid : OId) (now : Nat) (s s' : Store)
    (h : deleteResource { softDelete := true } rid now s = .ok s') :
    ∃ m₀, s.find? (loadSelector { softDelete := true } rid) = some m₀ ∧ m₀.id = rid ∧
      s' = updateSetDeleted rid now (lockMatching (loadSelector { softDelete := true } rid) s) := by
  unfold deleteResource at h
  cases hl : loadModel { softDelete := true } .deleteOp rid s with
  | error e =>
    rw [hl] at h
    simp [Bind.bind, Except.bind] at h
  | ok p =>
    obtain ⟨m, s₁⟩ := p
    rw [hl] at h
    obtain ⟨m₀, hfind, hm, hs₁⟩ := loadModel_deleteOp_ok _ _ _ _ _ hl
    have hid : m₀.id = rid := loadSelector_id _ _ _ (List.find?_some hfind)
    simp only [Bind.bind, Except.bind, if_true, pure, Except.pure, Except.ok.injEq] at h
    refine ⟨m₀, hfind, hid, ?_⟩
    rw [← h, hm, hs₁]
    simp [hid]

/-- C3: with soft delete enabled, after a successful Delete of the document
with the requested id, the document remains in storage with its delete
timestamp set, while every subsequent Find load, List load and
has-one/has-many relationship preload (whose queries all constrain the
soft-delete field to nil) excludes it. -/
theorem softDelete_visibility :
    ∀ (rid : OId) (now : Nat) (s s' : Store),
      deleteResource { softDelete := true } rid now s = .ok s' →
      (∃ d ∈ s', d.id = rid ∧ d.deleted = some now) ∧
      (∀ op, loadModel { softDelete := true } op rid s' =
        .error (jsonapiNotFound "resource not found")) ∧
      (∀ d ∈ loadModels { softDelete := true } s', d.id ≠ rid) ∧
      (∀ (toOneInverse : Bool) (ownerIds : List OId) (ownerId : OId),
        ¬ rid ∈ preloadRefs true toOneInverse ownerIds s' ownerId) := by
  intro rid now s s' h
  obtain ⟨m₀, hfind, hid, hs'⟩ := deleteResource_softDelete_ok rid now s s' h
  have hkey : ∀ d ∈ s', d.id = rid → d.deleted = some now := by
    intro d hd hdid
    rw [hs'] at hd
    exact deleted_of_mem_updateSetDeleted rid now _ d hd hdid
  refine ⟨?_, ?_, ?_, ?_⟩
  · have hm₀ : m₀ ∈ s := List.mem_of_find?_eq_some hfind
    obtain ⟨d₁, hd₁, hd₁id, _⟩ :=
      exists_mem_lockMatching (loadSelector { softDelete := true } rid) s m₀ hm₀
    refine ⟨{ d₁ with deleted := some now }, ?_, by simp [hd₁id, hid], rfl⟩
    rw [hs']
    unfold updateSetDeleted
    have heq : ({ d₁ with deleted := some now } : Doc) =
        (fun d => if d.id = rid then { d with deleted := some now } else d) d₁ := by
      simp [hd₁id, hid]
    rw [heq]
    exact List.mem_map_of_mem _ hd₁
  · intro op
    have hnone : s'.find? (loadSelector { softDelete := true } rid) = none := by
      rw [List.find?_eq_none]
      intro d hd hsel
      have hdid : d.id = rid := loadSelector_id _ _ _ hsel
      have hdel := hkey d hd hdid
      simp [loadSelector, hdel] at hsel
    unfold loadModel findFirstLock findFirst
    cases hw : op.write <;> simp [hw, hnone]
  · intro d hd hdid
    unfold loadModels at hd
    have hsel := List.mem_filter.mp hd
    have hdel := hkey d hsel.1 hdid
    have h2 := hsel.2
    simp [listSelector, hdel] at h2
  · intro toOne ownerIds ownerId hmem
    unfold preloadRefs at hmem
    rw [List.mem_flatten] at hmem
    obtain ⟨l, hl, hrid⟩ := hmem
    rw [List.mem_map] at hl
    obtain ⟨d, hdfilter, hld⟩ := hl
    have hdmem := (List.mem_filter.mp hdfilter).1
    have hdq := (List.mem_filter.mp hdfilter).2
    have hdid : d.id = rid := by
      subst hld
      exact (eq_id_of_mem_referenceHits toOne ownerId d rid hrid).symm ▸
        (eq_id_of_mem_referenceHits toOne ownerId d rid hrid)
    have hdel := hkey d hdmem hdid
    simp [preloadQuery, hdel] at hdq
  
/-- C3 witness: the statement applied to a one-document collection. -/
theorem softDelete_visibility_witness :
    (∃ d ∈ ([{ id := 1, deleted := some 7, lock := 1 }] : Store),
      d.id = 1 ∧ d.deleted = some 7) ∧
    (∀ op, loadModel { softDelete := true } op 1
        [{ id := 1, deleted := some 7, lock := 1 }] =
      .error (jsonapiNotFound "resource not found")) ∧
    (∀ d ∈ loadModels { softDelete := true }
        [{ id := 1, deleted := some 7, lock := 1 }], d.id ≠ 1) ∧
    (∀ (toOneInverse : Bool) (ownerIds : List OId) (ownerId : OId),
      ¬ (1 : OId) ∈ preloadRefs true toOneInverse ownerIds
        [{ id := 1, deleted := some 7, lock := 1 }] ownerId) :=
  softDelete_visibility 1 7 [{ id := 1 }]
    [{ id := 1, deleted := some 7, lock := 1 }] rfl

/-! ## C1 and C10: consistent update -/

theorem loadModel_write_eq (cfg : Config) (op : Operation) (rid : OId) (s : Store)
    (m₀ : Doc) (hop : op.write = true)
    (h : s.find? (loadSelector cfg rid) = some m₀) :
    loadModel cfg op rid s =
      .ok ({ m₀ with lock := m₀.lock + 1 }, lockMatching (loadSelector cfg rid) s) := by
  unfold loadModel findFirstLock
  simp only [hop, if_true, h]

/-- C10 counterexample: with consistent update enabled and a stored document
whose token field is empty, an Update whose document omits the token field
succeeds (the reset field and the stored field are both empty), so the claim's
"always fails with a 400" does not hold for every stored entity. -/
theorem updateResource_omitted_token_counterexample :
    updateResource { consistentUpdate := true } (fun _ _ => false) 1 {} "f"
      [{ id := 1 }] [{ id := 1 }] =
      .ok ({ id := 1, updateToken := "f", lock := 1 }, 200,
        [{ id := 1, updateToken := "f", lock := 1 }]) ∧
    ∀ e : Err, updateResource { consistentUpdate := true } (fun _ _ => false) 1 {} "f"
      [{ id := 1 }] [{ id := 1 }] ≠ .error e := by
  refine ⟨rfl, fun e h => ?_⟩
  rw [show updateResource { consistentUpdate := true } (fun _ _ => false) 1 {} "f"
      [{ id := 1 }] [{ id := 1 }] =
      .ok ({ id := 1, updateToken := "f", lock := 1 }, 200,
        [{ id := 1, updateToken := "f", lock := 1 }]) from rfl] at h
  exact Except.noConfusion h

/-- The model written by the consistent-update replace (src/controller.go
lines 563-614): the loaded document — its `_lk` counter incremented by the
locking load — with the document's supplied attributes assigned and the token
rotated to the fresh value. -/
def rotatedDoc (m : Doc) (da dc : Option String) (fresh : String) : Doc :=
  { m with
      lock := m.lock + 1
      attr := da.getD m.attr
      createToken := dc.getD m.createToken
      updateToken := fresh }

/-- Evaluation of `updateResource` on the consistent-update path: after a
successful load the handler reduces to the token check, the duplicate check
and the compare-and-swap replace. -/
theorem updateResource_cu_eval (dup : Store → Doc → Bool) (rid : OId)
    (da dc du : Option String) (fresh : String) (loadS repS : Store) (m : Doc)
    (hfind : loadS.find? (loadSelector { consistentUpdate := true } rid) = some m) :
    updateResource { consistentUpdate := true } dup rid ⟨da, dc, du⟩ fresh loadS repS =
      (if du.getD "" ≠ m.updateToken then
        .error (jsonapiBadRequest "invalid consistent update token")
      else if dup repS (rotatedDoc m da dc fresh) then
        .error (jsonapiErrorFromStatus 409 "document is not unique")
      else if !(replaceFirst (fun d => d.id = m.id && d.updateToken = du.getD "")
          (rotatedDoc m da dc fresh) repS).1 then
        .error (jsonapiErrorFromStatus 409 "existing document with different consistent update token")
      else
        .ok (rotatedDoc m da dc fresh, 200,
          (replaceFirst (fun d => d.id = m.id && d.updateToken = du.getD "")
            (rotatedDoc m da dc fresh) repS).2)) := by
  unfold updateResource
  rw [loadModel_write_eq { consistentUpdate := true } .updateOp rid loadS m rfl hfind]
  rfl

/-- C10 (amended): with consistent update enabled, the Update handler resets
the loaded token field to the empty string before assigning the document, so
whenever the stored token is non-empty — as it is for every document created
or updated through the controller, which always stores a freshly generated
token — an Update whose document omits the token field fails with the 400
error "invalid consistent update token", and any successful Update must have
submitted exactly the stored token. -/
theorem updateResource_requires_submitted_token :
    ∀ (rid : OId) (m : Doc) (doc : UpdateDoc) (fresh : String)
      (dup : Store → Doc → Bool) (loadS repS : Store),
      findFirst (loadSelector { consistentUpdate := true } rid) loadS = some m →
      m.updateToken ≠ "" →
      (doc.updateToken = none →
        updateResource { consistentUpdate := true } dup rid doc fresh loadS repS =
          .error (jsonapiBadRequest "invalid consistent update token")) ∧
      (∀ out, updateResource { consistentUpdate := true } dup rid doc fresh loadS repS =
        .ok out → doc.updateToken = some m.updateToken) := by
  intro rid m doc fresh dup loadS repS hfind hne
  obtain ⟨da, dc, du⟩ := doc
  have heval := updateResource_cu_eval dup rid da dc du fresh loadS repS m hfind
  constructor
  · intro hnone
    have hdu : du = none := hnone
    subst hdu
    rw [heval, if_pos (by simpa using Ne.symm hne)]
  · intro out hout
    rw [heval] at hout
    by_cases hcond : du.getD "" ≠ m.updateToken
    · rw [if_pos hcond] at hout
      exact Except.noConfusion hout
    · push_neg at hcond
      show du = some m.updateToken
      cases du with
      | none =>
        simp only [Option.getD_none] at hcond
        exact absurd hcond.symm hne
      | some t =>
        simp only [Option.getD_some] at hcond
        rw [hcond]

/-- C10 witness: the amended statement applied to a stored token "a" and a
document omitting the token field. -/
theorem updateResource_requires_submitted_token_witness :
    (updateResource { consistentUpdate := true } (fun _ _ => false) 1
      ({} : UpdateDoc) "f" [{ id := 1, updateToken := "a" }]
      [{ id := 1, updateToken := "a" }] =
      .error (jsonapiBadRequest "invalid consistent update token")) ∧
    (∀ out, updateResource { consistentUpdate := true } (fun _ _ => false) 1
      ({} : UpdateDoc) "f" [{ id := 1, updateToken := "a" }]
      [{ id := 1, updateToken := "a" }] = .ok out →
      ({} : UpdateDoc).updateToken = some "a") :=
  ⟨(updateResource_requires_submitted_token 1 { id := 1, updateToken := "a" } {}
      "f" (fun _ _ => false) [{ id := 1, updateToken := "a" }]
      [{ id := 1, updateToken := "a" }] rfl (by decide)).1 rfl,
   (updateResource_requires_submitted_token 1 { id := 1, updateToken := "a" } {}
      "f" (fun _ _ => false) [{ id := 1, updateToken := "a" }]
      [{ id := 1, updateToken := "a" }] rfl (by decide)).2⟩

/-- C1 counterexample: the claim says an Update whose submitted token does not
match the stored token fails with a 409 conflict, but the controller's own
token check rejects it with `jsonapi.BadRequest` — status 400, detail
"invalid consistent update token" (src/controller.go lines 601-605); only the
compare-and-swap race yields 409. -/
theorem updateResource_token_mismatch_status_counterexample :
    updateResource { consistentUpdate := true } (fun _ _ => false) 1
      { updateToken := some "b" } "c" [{ id := 1, updateToken := "a" }]
      [{ id := 1, updateToken := "a" }] =
      .error ⟨400, "invalid consistent update token"⟩ ∧
    (400 : Nat) ≠ 409 :=
  ⟨rfl, by decide⟩

/-- C1 (amended): with consistent update enabled, an Update carrying the
stored token T0 succeeds, rotates the token to the fresh value F ≠ T0 and
persists the rotated document; an Update whose submitted token differs from
the stored token fails with the 400 error "invalid consistent update token";
and an Update that matches the loaded token but loses the compare-and-swap
race — no document with the owner's id still carries T0 at replace time —
fails with 409, the aborted transaction leaving the persisted state
unchanged. -/
theorem updateResource_consistentUpdate_cas :
    (∀ (rid : OId) (m : Doc) (a : Option String) (fresh : String) (s : Store),
      findFirst (loadSelector { consistentUpdate := true } rid) s = some m →
      fresh ≠ m.updateToken →
      ∃ s₁, updateResource { consistentUpdate := true } (fun _ _ => false) rid
          ⟨a, none, some m.updateToken⟩ fresh s s =
        .ok (rotatedDoc m a none fresh, 200, s₁) ∧
        rotatedDoc m a none fresh ∈ s₁ ∧
        (rotatedDoc m a none fresh).updateToken = fresh ∧ fresh ≠ m.updateToken) ∧
    (∀ (rid : OId) (m : Doc) (doc : UpdateDoc) (t fresh : String)
       (dup : Store → Doc → Bool) (loadS repS : Store),
      findFirst (loadSelector { consistentUpdate := true } rid) loadS = some m →
      doc.updateToken = some t → t ≠ m.updateToken →
      updateResource { consistentUpdate := true } dup rid doc fresh loadS repS =
        .error (jsonapiBadRequest "invalid consistent update token")) ∧
    (∀ (rid : OId) (m : Doc) (a : Option String) (fresh : String) (loadS repS : Store),
      findFirst (loadSelector { consistentUpdate := true } rid) loadS = some m →
      (∀ d ∈ repS, ¬(d.id = m.id ∧ d.updateToken = m.updateToken)) →
      updateResource { consistentUpdate := true } (fun _ _ => false) rid
        ⟨a, none, some m.updateToken⟩ fresh loadS repS =
        .error (jsonapiErrorFromStatus 409 "existing document with different consistent update token")) := by
  refine ⟨?_, ?_, ?_⟩
  · intro rid m a fresh s hfind hf
    have heval := updateResource_cu_eval (fun _ _ => false) rid a none
      (some m.updateToken) fresh s s m hfind
    have hr1 : (replaceFirst
        (fun d => d.id = m.id && d.updateToken = (some m.updateToken).getD "")
        (rotatedDoc m a none fresh) s).1 = true :=
      replaceFirst_fst_of_exists _ _ _ ⟨m, List.mem_of_find?_eq_some hfind, by simp⟩
    refine ⟨_, ?_, mem_replaceFirst_self _ _ _ hr1, rfl, hf⟩
    rw [heval, if_neg (by simp), if_neg (by simp), if_neg (by rw [hr1]; simp)]
  · intro rid m doc t fresh dup loadS repS hfind hdoc ht
    obtain ⟨da, dc, du⟩ := doc
    have hdu : du = some t := hdoc
    subst hdu
    rw [updateResource_cu_eval dup rid da dc (some t) fresh loadS repS m hfind,
      if_pos (by simpa using ht)]
  · intro rid m a fresh loadS repS hfind hnomatch
    have heval := updateResource_cu_eval (fun _ _ => false) rid a none
      (some m.updateToken) fresh loadS repS m hfind
    have hr0 : (replaceFirst
        (fun d => d.id = m.id && d.updateToken = (some m.updateToken).getD "")
        (rotatedDoc m a none fresh) repS).1 = false := by
      refine replaceFirst_fst_of_not_exists _ _ _ (fun d hd => ?_)
      have hnm := hnomatch d hd
      by_cases h1 : d.id = m.id
      · by_cases h2 : d.updateToken = m.updateToken
        · exact absurd ⟨h1, h2⟩ hnm
        · simp [h2]
      · simp [h1]
    rw [heval, if_neg (by simp), if_neg (by simp), if_pos (by rw [hr0]; rfl)]

/-- C1 witness: the amended statement applied at concrete inputs — a matching
token against [token "a"], a mismatching token, and a matching token whose
replace-time collection already carries the rotated token "c". -/
theorem updateResource_consistentUpdate_cas_witness :
    (∃ s₁, updateResource { consistentUpdate := true } (fun _ _ => false) 1
        ⟨none, none, some "a"⟩ "b" [{ id := 1, updateToken := "a" }]
        [{ id := 1, updateToken := "a" }] =
      .ok (rotatedDoc { id := 1, updateToken := "a" } none none "b", 200, s₁) ∧
      rotatedDoc { id := 1, updateToken := "a" } none none "b" ∈ s₁ ∧
      (rotatedDoc { id := 1, updateToken := "a" } none none "b").updateToken = "b" ∧
      "b" ≠ "a") ∧
    updateResource { consistentUpdate := true } (fun _ _ => false) 1
      { updateToken := some "x" } "b" [{ id := 1, updateToken := "a" }]
      [{ id := 1, updateToken := "a" }] =
      .error (jsonapiBadRequest "invalid consistent update token") ∧
    updateResource { consistentUpdate := true } (fun _ _ => false) 1
      ⟨none, none, some "a"⟩ "b" [{ id := 1, updateToken := "a" }]
      [{ id := 1, updateToken := "c" }] =
      .error (jsonapiErrorFromStatus 409 "existing document with different consistent update token") :=
  ⟨updateResource_consistentUpdate_cas.1 1 { id := 1, updateToken := "a" } none "b"
      [{ id := 1, updateToken := "a" }] rfl (by decide),
   updateResource_consistentUpdate_cas.2.1 1 { id := 1, updateToken := "a" }
      { updateToken := some "x" } "x" "b" (fun _ _ => false)
      [{ id := 1, updateToken := "a" }] [{ id := 1, updateToken := "a" }]
      rfl rfl (by decide),
   updateResource_consistentUpdate_cas.2.2 1 { id := 1, updateToken := "a" } none "b"
      [{ id := 1, updateToken := "a" }] [{ id := 1, updateToken := "c" }]
      rfl (by decide)⟩
